import Mathlib

/-!
Verification of the connections-discovery subsystem of a workflow engine.

The subsystem under study is the type-compatibility analysis engine: given a
registry of block descriptions (manifest fields plus declared outputs), it
computes which block properties can carry which semantic kinds and which
blocks can supply/consume which other blocks' fields/outputs.

The production module `connections_discovery.py` is not part of the source
tree given here; its behaviour is pinned by its unit-test file
`tests/workflows/unit_tests/execution_engine/introspection/test_connections_discovery.py`
(three concrete blocks with exact expected results) and by the design
document.  The definitions below are therefore modelled from the spec,
made consistent with the concrete assertions of the test file wherever the
two disagree.
-/

/-- Kinds are compared by name; we identify a kind with its name string. -/
abbrev Kind := String

/-- Modelled from the spec: the distinguished wildcard kind, compatible with
everything.  The test file's expected `kinds_connections` dictionary uses the
key `"*"`. -/
def wildcard : Kind := "*"

/-- Modelled from the spec: classification of what a selector-typed field
references (`step_output`, `inference_parameter`, `step_selector`). -/
inductive SelectorKind where
  | step_output
  | inference_parameter
  | step_selector
deriving DecidableEq, Repr

/-- One branch of a manifest field's type expression: either a plain literal
type (bool, str, ...) or a selector annotation carrying a selector family and
the list of accepted kinds, mirroring
`Union[bool, InferenceParameterSelector(kind=[...])]` style annotations in the
test manifests. -/
inductive TypeBranch where
  | literal
  | selector (sk : SelectorKind) (kinds : List Kind)
deriving DecidableEq, Repr

/-- A manifest field's type expression: a union of branches, optionally a list
of such elements (`List[StepOutputSelector(kind=[...])]` has `isList = true`). -/
structure FieldType where
  isList : Bool
  branches : List TypeBranch
deriving DecidableEq, Repr

/-- A named manifest field together with its type expression. -/
structure FieldDef where
  name : String
  type : FieldType
deriving DecidableEq, Repr

/-- `OutputDefinition(name=..., kind=[...])` from the block prototypes. -/
structure OutputDefinition where
  name : String
  kind : List Kind
deriving DecidableEq, Repr

/-- `BlockDescription` from the introspection entities: the static description
of one block type.  The block class is identified by its name string
(`blockType`), since class identity in the source is identity of the Python
class object. -/
structure BlockDescription where
  blockType : String
  manifestTypeIdentifier : String
  manifestFields : List FieldDef
  outputsManifest : List OutputDefinition
  fullyQualifiedBlockClassName : String
  humanFriendlyBlockName : String
deriving DecidableEq, Repr

/-- `BlocksDescription`: the input registry, a list of block descriptions plus
the catalog of declared kinds. -/
structure BlocksDescription where
  blocks : List BlockDescription
  declaredKinds : List Kind
deriving DecidableEq, Repr

/-- `BlockPropertyDefinition` from the introspection entities: identifies one
selector-capable field on one block, with its selector family and whether the
selector occurs as a list element. -/
structure BlockPropertyDefinition where
  blockType : String
  manifestTypeIdentifier : String
  propertyName : String
  compatibleElement : SelectorKind
  isListElement : Bool
deriving DecidableEq, Repr

/-- Discovery-time fatal errors from the error-handling design. -/
inductive DiscoveryError where
  | unknownKind (k : Kind)
  | ambiguousSelector (field : String)
  | emptyKindSet (field : String)
deriving DecidableEq, Repr

/-- The selector branches of a type expression, in declaration order. -/
def TypeBranch.selectorInfo : TypeBranch → Option (SelectorKind × List Kind)
  | .literal => none
  | .selector sk ks => some (sk, ks)

/-- All selector branches of a field type, with their declared kinds. -/
def selectorBranches (ft : FieldType) : List (SelectorKind × List Kind) :=
  ft.branches.filterMap TypeBranch.selectorInfo

/-- Modelled from the spec: the kind-registry existence check — a kind is
known when it is declared or is the wildcard sentinel. -/
def kindExists (declared : List Kind) (k : Kind) : Bool :=
  k == wildcard || declared.contains k

/-- Modelled from the spec: per-field validation of the manifest
introspector.  A field with no selector branch is skipped; a field whose
selector branches span two different selector families is ambiguous; a
selector with an empty kind set is rejected; every referenced kind must
exist in the declared catalog (wildcard counts as existing). -/
def fieldError (declared : List Kind) (f : FieldDef) : Option DiscoveryError :=
  match selectorBranches f.type with
  | [] => none
  | (sk, ks) :: rest =>
    if rest.any (fun p => decide (p.1 ≠ sk)) then
      some (.ambiguousSelector f.name)
    else
      let kinds := ks ++ rest.flatMap (fun p => p.2)
      if kinds.isEmpty then
        some (.emptyKindSet f.name)
      else
        (kinds.find? (fun k => !kindExists declared k)).map .unknownKind

/-- Modelled from the spec: validation of one block — every manifest field
and every output kind must pass the checks above. -/
def blockError (declared : List Kind) (b : BlockDescription) : Option DiscoveryError :=
  match b.manifestFields.findSome? (fieldError declared) with
  | some e => some e
  | none =>
    ((b.outputsManifest.flatMap (fun o => o.kind)).find?
      (fun k => !kindExists declared k)).map .unknownKind

/-- Modelled from the spec: registry-wide validation; discovery aborts on the
first fatal error and publishes no partial result. -/
def registryError (bd : BlocksDescription) : Option DiscoveryError :=
  bd.blocks.findSome? (blockError bd.declaredKinds)

/-- Modelled from the spec: the property descriptor extracted from one
manifest field (none for a non-selector field), together with its accepted
kind set.  The selector family is the family of the selector branches (on a
validated manifest all branches agree), `isListElement` records a
list-of-selectors field, and the kind set is the union of the branches'
declared kinds. -/
def fieldProp (b : BlockDescription) (f : FieldDef) :
    Option (BlockPropertyDefinition × List Kind) :=
  match selectorBranches f.type with
  | [] => none
  | (sk, ks) :: rest =>
    some (⟨b.blockType, b.manifestTypeIdentifier, f.name, sk, f.type.isList⟩,
          ks ++ rest.flatMap (fun p => p.2))

/-- The ordered sequence of property descriptors of one block's manifest. -/
def blockProps (b : BlockDescription) : List (BlockPropertyDefinition × List Kind) :=
  b.manifestFields.filterMap (fieldProp b)

/-- All property descriptors of the registry, in registration order. -/
def allProps (bd : BlocksDescription) : List (BlockPropertyDefinition × List Kind) :=
  bd.blocks.flatMap blockProps

/-- Modelled from the spec: kind-set compatibility — non-empty intersection,
or the wildcard on either side. -/
def compatibleKinds (k1 k2 : List Kind) : Bool :=
  k1.any (fun k => k2.contains k) || k1.contains wildcard || k2.contains wildcard

/-- The keys of the `kinds_connections` dictionary: a kind gets a bucket when
some property accepts it, and the wildcard bucket exists whenever at least one
selector property exists (buckets are created on insertion, matching the test
file's expected key set, where kind "3" — produced but accepted by nobody —
is absent). -/
def kindsDom (bd : BlocksDescription) : Finset Kind :=
  ((allProps bd).flatMap (fun p => p.2)).toFinset ∪
    (if allProps bd = [] then ∅ else {wildcard})

/-- The bucket of one kind: every property accepting that kind; the wildcard
bucket receives every property unconditionally. -/
def kindsGet (bd : BlocksDescription) (k : Kind) : Finset BlockPropertyDefinition :=
  (((allProps bd).filter (fun p => k == wildcard || p.2.contains k)).map Prod.fst).toFinset

/-- The keys of the two block-indexed dictionaries: every registered block. -/
def domBlocks (bd : BlocksDescription) : Finset String :=
  (bd.blocks.map (fun b => b.blockType)).toFinset

/-- Lookup of a registered block by block-type identity. -/
def findBlock (bd : BlocksDescription) (bt : String) : Option BlockDescription :=
  bd.blocks.find? (fun b => b.blockType == bt)

/-- The property names present for a block in `input_connections.property_wise`:
all its selector properties, of any selector family. -/
def inputProps (bd : BlocksDescription) (bt : String) : Finset String :=
  match findBlock bd bt with
  | none => ∅
  | some b => ((blockProps b).map (fun p => p.1.propertyName)).toFinset

/-- Modelled from the spec: the supplier set of one property — empty for
`inference_parameter` and `step_selector` properties; for a `step_output`
property, every registered block having an output whose kinds are compatible
(self-loops are not excluded). -/
def suppliers (bd : BlocksDescription) (pk : BlockPropertyDefinition × List Kind) :
    Finset String :=
  if pk.1.compatibleElement = SelectorKind.step_output then
    ((bd.blocks.filter
        (fun c => c.outputsManifest.any (fun o => compatibleKinds o.kind pk.2))).map
      (fun c => c.blockType)).toFinset
  else ∅

/-- `input_connections.property_wise` lookup: block, then property name. -/
def inputGet (bd : BlocksDescription) (bt pn : String) : Finset String :=
  match findBlock bd bt with
  | none => ∅
  | some b =>
    match (blockProps b).find? (fun p => p.1.propertyName == pn) with
    | none => ∅
    | some pk => suppliers bd pk

/-- `input_connections.block_wise` lookup: every block that can supply some
`step_output` property of the given block. -/
def inputBw (bd : BlocksDescription) (bt : String) : Finset String :=
  match findBlock bd bt with
  | none => ∅
  | some b =>
    ((bd.blocks.filter
        (fun c => (blockProps b).any
          (fun pk => pk.1.compatibleElement == SelectorKind.step_output &&
            c.outputsManifest.any (fun o => compatibleKinds o.kind pk.2)))).map
      (fun c => c.blockType)).toFinset

/-- The output names present for a block in `output_connections.property_wise`. -/
def outputProps (bd : BlocksDescription) (bt : String) : Finset String :=
  match findBlock bd bt with
  | none => ∅
  | some b => (b.outputsManifest.map (fun o => o.name)).toFinset

/-- Modelled from the spec: the consumer set of one output — every registered
block having a `step_output` property whose accepted kinds are compatible with
the output's kinds. -/
def consumers (bd : BlocksDescription) (o : OutputDefinition) : Finset String :=
  ((bd.blocks.filter
      (fun c => (blockProps c).any
        (fun pk => pk.1.compatibleElement == SelectorKind.step_output &&
          compatibleKinds o.kind pk.2))).map
    (fun c => c.blockType)).toFinset

/-- `output_connections.property_wise` lookup: block, then output name. -/
def outputGet (bd : BlocksDescription) (bt oname : String) : Finset String :=
  match findBlock bd bt with
  | none => ∅
  | some b =>
    match b.outputsManifest.find? (fun o => o.name == oname) with
    | none => ∅
    | some o => consumers bd o

/-- `output_connections.block_wise` lookup: every block that can consume some
output of the given block. -/
def outputBw (bd : BlocksDescription) (bt : String) : Finset String :=
  match findBlock bd bt with
  | none => ∅
  | some b =>
    ((bd.blocks.filter
        (fun c => b.outputsManifest.any
          (fun o => (blockProps c).any
            (fun pk => pk.1.compatibleElement == SelectorKind.step_output &&
              compatibleKinds o.kind pk.2)))).map
      (fun c => c.blockType)).toFinset

/-- The `kinds_connections` component: keys plus per-key bucket. -/
structure KindsConnections where
  dom : Finset Kind
  get : Kind → Finset BlockPropertyDefinition

/-- One direction of block connections: the key set shared by the
`property_wise` and `block_wise` dictionaries, the per-block inner key set, the
`property_wise` lookup, and the `block_wise` lookup (all lookups return `∅`
outside the respective key sets). -/
structure BlockConnections where
  dom : Finset String
  props : String → Finset String
  get : String → String → Finset String
  blockWise : String → Finset String

/-- `ConnectionsDiscoveryResult`: the sole output artifact. -/
structure ConnectionsDiscoveryResult where
  kindsConnections : KindsConnections
  inputConnections : BlockConnections
  outputConnections : BlockConnections

/-- The discovery result built from a validated registry. -/
def buildResult (bd : BlocksDescription) : ConnectionsDiscoveryResult where
  kindsConnections := ⟨kindsDom bd, kindsGet bd⟩
  inputConnections := ⟨domBlocks bd, inputProps bd, inputGet bd, inputBw bd⟩
  outputConnections := ⟨domBlocks bd, outputProps bd, outputGet bd, outputBw bd⟩

/-- Modelled from the spec: `discover_blocks_connections` — validate the whole
registry, abort on the first fatal error, otherwise publish the full result. -/
def discover_blocks_connections (bd : BlocksDescription) :
    Except DiscoveryError ConnectionsDiscoveryResult :=
  match registryError bd with
  | some e => .error e
  | none => .ok (buildResult bd)

/-! ### The concrete three-block registry of the unit-test file -/

/-- `Block1Manifest`: a `type` literal, a plain `name` field,
`field_1 : Union[bool, InferenceParameterSelector(kind=[MY_KIND_1])]` and
`field_2 : Union[str, StepOutputSelector(kind=[MY_KIND_2])]`. -/
def block1Manifest : List FieldDef :=
  [⟨"type", ⟨false, [.literal]⟩⟩,
   ⟨"name", ⟨false, [.literal]⟩⟩,
   ⟨"field_1", ⟨false, [.literal, .selector .inference_parameter ["1"]]⟩⟩,
   ⟨"field_2", ⟨false, [.literal, .selector .step_output ["2"]]⟩⟩]

/-- `Block2Manifest`: a `type` literal, a plain `name` field and
`field_1 : List[StepOutputSelector(kind=[MY_KIND_1])]`. -/
def block2Manifest : List FieldDef :=
  [⟨"type", ⟨false, [.literal]⟩⟩,
   ⟨"name", ⟨false, [.literal]⟩⟩,
   ⟨"field_1", ⟨true, [.selector .step_output ["1"]]⟩⟩]

/-- `Block3Manifest`: a `type` literal, a plain `name` field and a plain
`field_1 : str` with no selector alternative. -/
def block3Manifest : List FieldDef :=
  [⟨"type", ⟨false, [.literal]⟩⟩,
   ⟨"name", ⟨false, [.literal]⟩⟩,
   ⟨"field_1", ⟨false, [.literal]⟩⟩]

/-- `BLOCK_1_DESCRIPTION` of the test file. -/
def block1Description : BlockDescription :=
  ⟨"Block1", "Block1Manifest", block1Manifest,
   [⟨"output_1", ["1"]⟩], "some.Block1", "Block 1"⟩

/-- `BLOCK_2_DESCRIPTION` of the test file. -/
def block2Description : BlockDescription :=
  ⟨"Block2", "Block2Manifest", block2Manifest,
   [⟨"output_1", ["3"]⟩, ⟨"output_2", ["2"]⟩], "some.Block2", "Block 2"⟩

/-- `BLOCK_3_DESCRIPTION` of the test file. -/
def block3Description : BlockDescription :=
  ⟨"Block3", "Block3Manifest", block3Manifest,
   [⟨"output_1", ["1"]⟩], "some.Block3", "Block 3"⟩

/-- `BLOCKS_DESCRIPTION` of the test file: the three blocks and the declared
kinds "1", "2", "3". -/
def blocksDescription : BlocksDescription :=
  ⟨[block1Description, block2Description, block3Description], ["1", "2", "3"]⟩

/-! ### Helper lemmas -/

/-- A registry with no fatal error publishes the full built result. -/
theorem discover_eq_ok {bd : BlocksDescription} (h : registryError bd = none) :
    discover_blocks_connections bd = .ok (buildResult bd) := by
  unfold discover_blocks_connections
  rw [h]

/-- A successful discovery run returns exactly the built result. -/
theorem discover_ok_inv {bd : BlocksDescription} {r : ConnectionsDiscoveryResult}
    (h : discover_blocks_connections bd = .ok r) : r = buildResult bd := by
  unfold discover_blocks_connections at h
  cases he : registryError bd with
  | some e => rw [he] at h; exact absurd h (by simp)
  | none => rw [he] at h; exact (Except.ok.injEq _ _).mp h.symm

/-- The concrete three-block registry of the test file validates cleanly. -/
theorem discover_test_ok :
    discover_blocks_connections blocksDescription = .ok (buildResult blocksDescription) :=
  discover_eq_ok (by decide)

/-- Unfolding of the compatibility test into intersection-or-wildcard form. -/
theorem compatibleKinds_iff (k1 k2 : List Kind) :
    compatibleKinds k1 k2 = true ↔
      (∃ k ∈ k1, k ∈ k2) ∨ wildcard ∈ k1 ∨ wildcard ∈ k2 := by
  simp only [compatibleKinds, Bool.or_eq_true, List.any_eq_true, List.contains,
    List.elem_eq_mem, decide_eq_true_eq, or_assoc]

/-- Membership in a property's supplier set. -/
theorem mem_suppliers {bd : BlocksDescription} {pk : BlockPropertyDefinition × List Kind}
    {x : String} :
    x ∈ suppliers bd pk ↔
      pk.1.compatibleElement = SelectorKind.step_output ∧
        ∃ c ∈ bd.blocks, c.blockType = x ∧
          ∃ o ∈ c.outputsManifest, compatibleKinds o.kind pk.2 = true := by
  by_cases hse : pk.1.compatibleElement = SelectorKind.step_output
  · rw [suppliers, if_pos hse]
    simp only [List.mem_toFinset, List.mem_map, List.mem_filter,
      List.any_eq_true, hse, true_and]
    constructor
    · rintro ⟨c, ⟨hc, o, ho, hco⟩, rfl⟩
      exact ⟨c, hc, rfl, o, ho, hco⟩
    · rintro ⟨c, hc, rfl, o, ho, hco⟩
      exact ⟨c, ⟨hc, o, ho, hco⟩, rfl⟩
  · rw [suppliers, if_neg hse]
    simp [hse]

/-- Membership in an output's consumer set. -/
theorem mem_consumers {bd : BlocksDescription} {o : OutputDefinition} {x : String} :
    x ∈ consumers bd o ↔
      ∃ c ∈ bd.blocks, c.blockType = x ∧
        ∃ pk ∈ blockProps c, pk.1.compatibleElement = SelectorKind.step_output ∧
          compatibleKinds o.kind pk.2 = true := by
  rw [consumers]
  simp only [List.mem_toFinset, List.mem_map, List.mem_filter, List.any_eq_true,
    Bool.and_eq_true, beq_iff_eq]
  constructor
  · rintro ⟨c, ⟨hc, pk, hpk, hse, hco⟩, rfl⟩
    exact ⟨c, hc, rfl, pk, hpk, hse, hco⟩
  · rintro ⟨c, hc, rfl, pk, hpk, hse, hco⟩
    exact ⟨c, ⟨hc, pk, hpk, hse, hco⟩, rfl⟩

/-- Membership in a kind's bucket. -/
theorem mem_kindsGet {bd : BlocksDescription} {k : Kind} {pr : BlockPropertyDefinition} :
    pr ∈ kindsGet bd k ↔
      ∃ pk ∈ allProps bd, pk.1 = pr ∧ (k = wildcard ∨ k ∈ pk.2) := by
  rw [kindsGet]
  simp only [List.mem_toFinset, List.mem_map, List.mem_filter, Bool.or_eq_true,
    beq_iff_eq, List.contains, List.elem_eq_mem, decide_eq_true_eq]
  constructor
  · rintro ⟨pk, ⟨hpk, hk⟩, rfl⟩
    exact ⟨pk, hpk, rfl, hk⟩
  · rintro ⟨pk, hpk, rfl, hk⟩
    exact ⟨pk, ⟨hpk, hk⟩, rfl⟩

/-- The key set of `kinds_connections`. -/
theorem mem_kindsDom {bd : BlocksDescription} {k : Kind} :
    k ∈ kindsDom bd ↔
      (∃ pk ∈ allProps bd, k ∈ pk.2) ∨ (k = wildcard ∧ allProps bd ≠ []) := by
  rw [kindsDom]
  by_cases hne : allProps bd = []
  · simp [hne, List.mem_flatMap]
  · rw [if_neg hne]
    simp only [Finset.mem_union, List.mem_toFinset, List.mem_flatMap,
      Finset.mem_singleton, ne_eq, hne, not_false_iff, and_true]

/-- `find?` with an injective key function locates exactly the member with the
given key. -/
theorem find?_key_eq_some_iff {α β : Type} [DecidableEq β] (f : α → β) (c : β)
    (l : List α) (hnd : (l.map f).Nodup) (x : α) :
    l.find? (fun y => f y == c) = some x ↔ x ∈ l ∧ f x = c := by
  induction l with
  | nil => simp
  | cons a t ih =>
    simp only [List.map_cons, List.nodup_cons, List.mem_map] at hnd
    by_cases ha : f a = c
    · rw [List.find?_cons_of_pos _ (by simpa using ha)]
      simp only [Option.some.injEq, List.mem_cons]
      constructor
      · rintro rfl
        exact ⟨Or.inl rfl, ha⟩
      · rintro ⟨hx | hx, hfx⟩
        · exact hx.symm
        · exact absurd ⟨x, hx, by rw [hfx, ha]⟩ hnd.1
    · rw [List.find?_cons_of_neg _ (by simpa using ha)]
      rw [ih hnd.2]
      simp only [List.mem_cons]
      constructor
      · rintro ⟨hx, hfx⟩
        exact ⟨Or.inr hx, hfx⟩
      · rintro ⟨hx | hx, hfx⟩
        · exact absurd (hx ▸ hfx) ha
        · exact ⟨hx, hfx⟩

/-- A successful lookup returns a registered block with the requested type. -/
theorem findBlock_mem {bd : BlocksDescription} {bt : String} {b : BlockDescription}
    (h : findBlock bd bt = some b) : b ∈ bd.blocks ∧ b.blockType = bt := by
  refine ⟨List.mem_of_find?_eq_some h, ?_⟩
  have := List.find?_some h
  simpa using this

/-- With pairwise-distinct block types, lookup finds exactly the registered
block of that type. -/
theorem findBlock_eq_some_iff {bd : BlocksDescription} {bt : String}
    (hnd : (bd.blocks.map (fun b => b.blockType)).Nodup) (b : BlockDescription) :
    findBlock bd bt = some b ↔ b ∈ bd.blocks ∧ b.blockType = bt := by
  rw [findBlock]
  exact find?_key_eq_some_iff (fun b => b.blockType) bt bd.blocks hnd b

/-- What a successfully extracted property descriptor records about its field. -/
theorem fieldProp_eq_some {b : BlockDescription} {f : FieldDef}
    {pk : BlockPropertyDefinition × List Kind} (h : fieldProp b f = some pk) :
    pk.1.blockType = b.blockType ∧
      pk.1.manifestTypeIdentifier = b.manifestTypeIdentifier ∧
      pk.1.propertyName = f.name ∧ selectorBranches f.type ≠ [] := by
  rw [fieldProp] at h
  cases hsel : selectorBranches f.type with
  | nil => rw [hsel] at h; exact absurd h (by simp)
  | cons hd tl =>
    rw [hsel] at h
    obtain ⟨sk, ks⟩ := hd
    cases h
    exact ⟨rfl, rfl, rfl, by simp [hsel]⟩

/-- The property descriptors of a block are those of its selector fields. -/
theorem mem_blockProps {b : BlockDescription} {pk : BlockPropertyDefinition × List Kind} :
    pk ∈ blockProps b ↔ ∃ f ∈ b.manifestFields, fieldProp b f = some pk :=
  List.mem_filterMap

/-- The extracted property names, in order: the names of the selector fields. -/
theorem blockProps_names (b : BlockDescription) :
    (blockProps b).map (fun p => p.1.propertyName) =
      (b.manifestFields.filter
        (fun f => !(selectorBranches f.type).isEmpty)).map FieldDef.name := by
  rw [blockProps]
  induction b.manifestFields with
  | nil => rfl
  | cons f fs ih =>
    rw [List.filterMap_cons]
    cases hsel : selectorBranches f.type with
    | nil =>
      rw [fieldProp, hsel]
      simpa [List.filter_cons, hsel] using ih
    | cons hd tl =>
      obtain ⟨sk, ks⟩ := hd
      rw [fieldProp, hsel]
      simpa [List.filter_cons, hsel] using ih

/-- Distinct manifest field names give distinct extracted property names. -/
theorem blockProps_names_nodup {b : BlockDescription}
    (h : (b.manifestFields.map FieldDef.name).Nodup) :
    ((blockProps b).map (fun p => p.1.propertyName)).Nodup := by
  rw [blockProps_names]
  exact h.sublist ((List.filter_sublist _).map FieldDef.name)

/-- With distinct field names, the `property_wise` lookup of an extracted
property returns exactly its supplier set. -/
theorem inputGet_eq {bd : BlocksDescription} {bt : String} {b : BlockDescription}
    {pk : BlockPropertyDefinition × List Kind}
    (hb : findBlock bd bt = some b)
    (hnd : (b.manifestFields.map FieldDef.name).Nodup)
    (hpk : pk ∈ blockProps b) :
    inputGet bd bt pk.1.propertyName = suppliers bd pk := by
  have hfind := (find?_key_eq_some_iff (fun p => p.1.propertyName) pk.1.propertyName
    (blockProps b) (blockProps_names_nodup hnd) pk).mpr ⟨hpk, rfl⟩
  simp only [inputGet, hb, hfind]

/-- With distinct output names, the output `property_wise` lookup of a declared
output returns exactly its consumer set. -/
theorem outputGet_eq {bd : BlocksDescription} {bt : String} {b : BlockDescription}
    {o : OutputDefinition}
    (hb : findBlock bd bt = some b)
    (hnd : (b.outputsManifest.map OutputDefinition.name).Nodup)
    (ho : o ∈ b.outputsManifest) :
    outputGet bd bt o.name = consumers bd o := by
  have hfind := (find?_key_eq_some_iff (fun o => o.name) o.name
    b.outputsManifest hnd o).mpr ⟨ho, rfl⟩
  simp only [outputGet, hb, hfind]

/-- Membership in `input_connections.block_wise`: some property of the block
has this supplier. -/
theorem mem_inputBw {bd : BlocksDescription} {bt : String} {b : BlockDescription}
    {x : String} (hb : findBlock bd bt = some b) :
    x ∈ inputBw bd bt ↔ ∃ pk ∈ blockProps b, x ∈ suppliers bd pk := by
  rw [inputBw, hb]
  simp only [List.mem_toFinset, List.mem_map, List.mem_filter, List.any_eq_true,
    Bool.and_eq_true, beq_iff_eq]
  constructor
  · rintro ⟨c, ⟨hc, pk, hpk, hse, o, ho, hco⟩, rfl⟩
    refine ⟨pk, hpk, mem_suppliers.mpr ⟨hse, c, hc, rfl, o, ho, hco⟩⟩
  · rintro ⟨pk, hpk, hx⟩
    obtain ⟨hse, c, hc, rfl, o, ho, hco⟩ := mem_suppliers.mp hx
    exact ⟨c, ⟨hc, pk, hpk, hse, o, ho, hco⟩, rfl⟩

/-- Membership in `output_connections.block_wise`: some output of the block
has this consumer. -/
theorem mem_outputBw {bd : BlocksDescription} {bt : String} {b : BlockDescription}
    {x : String} (hb : findBlock bd bt = some b) :
    x ∈ outputBw bd bt ↔ ∃ o ∈ b.outputsManifest, x ∈ consumers bd o := by
  rw [outputBw, hb]
  simp only [List.mem_toFinset, List.mem_map, List.mem_filter, List.any_eq_true,
    Bool.and_eq_true, beq_iff_eq]
  constructor
  · rintro ⟨c, ⟨hc, o, ho, pk, hpk, hse, hco⟩, rfl⟩
    refine ⟨o, ho, mem_consumers.mpr ⟨c, hc, rfl, pk, hpk, hse, hco⟩⟩
  · rintro ⟨o, ho, hx⟩
    obtain ⟨c, hc, rfl, pk, hpk, hse, hco⟩ := mem_consumers.mp hx
    exact ⟨c, ⟨hc, o, ho, pk, hpk, hse, hco⟩, rfl⟩

/-! ### The claims -/

/-- C1: for the concrete three-block registry of the test file, discovery
succeeds and returns exactly
`input_connections.block_wise = {Block1: {Block2}, Block2: {Block1, Block3}, Block3: {}}`
and
`output_connections.block_wise = {Block1: {Block2}, Block2: {Block1}, Block3: {Block2}}`
(the key sets are exactly the three registered blocks). -/
theorem c1_concrete_scenario_block_wise :
    discover_blocks_connections blocksDescription =
      Except.ok (buildResult blocksDescription) ∧
    (buildResult blocksDescription).inputConnections.dom =
      {"Block1", "Block2", "Block3"} ∧
    (buildResult blocksDescription).inputConnections.blockWise "Block1" = {"Block2"} ∧
    (buildResult blocksDescription).inputConnections.blockWise "Block2" =
      {"Block1", "Block3"} ∧
    (buildResult blocksDescription).inputConnections.blockWise "Block3" = ∅ ∧
    (buildResult blocksDescription).outputConnections.dom =
      {"Block1", "Block2", "Block3"} ∧
    (buildResult blocksDescription).outputConnections.blockWise "Block1" = {"Block2"} ∧
    (buildResult blocksDescription).outputConnections.blockWise "Block2" = {"Block1"} ∧
    (buildResult blocksDescription).outputConnections.blockWise "Block3" = {"Block2"} :=
  ⟨discover_test_ok, by decide, by decide, by decide, by decide, by decide,
   by decide, by decide, by decide⟩

/-- C2 counterexample: in the concrete three-block registry, kind "3" is
declared but no property accepts it, and the discovery result does *not* give
it an (empty) `kinds_connections` bucket — the key "3" is absent, exactly as
the unit test's expected dictionary `{"1": ..., "2": ..., "*": ...}` demands. -/
theorem c2_declared_kind_without_bucket :
    discover_blocks_connections blocksDescription =
      Except.ok (buildResult blocksDescription) ∧
    ("3" : Kind) ∈ blocksDescription.declaredKinds ∧
    ("3" : Kind) ∉ (buildResult blocksDescription).kindsConnections.dom :=
  ⟨discover_test_ok, by decide, by decide⟩

/-- C2 (amended): a kind appears as a key of `kinds_connections` exactly when
some extracted selector property accepts it, or it is the wildcard and at
least one selector property exists; declared kinds accepted by no property
(such as "3" in the three-block registry) are absent, not present-and-empty. -/
theorem c2_kinds_connections_key_characterization
    (bd : BlocksDescription) (r : ConnectionsDiscoveryResult)
    (h : discover_blocks_connections bd = Except.ok r) (k : Kind) :
    k ∈ r.kindsConnections.dom ↔
      (∃ pk ∈ allProps bd, k ∈ pk.2) ∨ (k = wildcard ∧ allProps bd ≠ []) := by
  rw [discover_ok_inv h]
  exact mem_kindsDom

/-- Witness for C2 (amended): the characterization applied to kind "3" of the
concrete registry. -/
theorem c2_kinds_connections_key_characterization_witness :
    discover_blocks_connections blocksDescription =
      Except.ok (buildResult blocksDescription) ∧
    (("3" : Kind) ∈ (buildResult blocksDescription).kindsConnections.dom ↔
      (∃ pk ∈ allProps blocksDescription, ("3" : Kind) ∈ pk.2) ∨
        (("3" : Kind) = wildcard ∧ allProps blocksDescription ≠ [])) :=
  ⟨discover_test_ok,
   c2_kinds_connections_key_characterization blocksDescription
     (buildResult blocksDescription) discover_test_ok "3"⟩

/-- A registry exercising a property that declares only the wildcard kind
(legal: the wildcard passes the kind-existence check and makes the kind set
non-empty), used to separate the wildcard bucket from the union of the
concrete kinds' buckets. -/
def wildcardOnlyRegistry : BlocksDescription :=
  ⟨[⟨"BlockW", "BlockWManifest",
     [⟨"field_1", ⟨false, [.selector .step_output [wildcard]]⟩⟩],
     [], "some.BlockW", "Block W"⟩], []⟩

/-- C3 counterexample: in `wildcardOnlyRegistry` the only property declares
exactly the wildcard kind, so the wildcard bucket holds it while the union
over all concrete (non-wildcard) kinds' buckets is empty — the wildcard
bucket has an extra member. -/
theorem c3_wildcard_bucket_strictly_larger :
    discover_blocks_connections wildcardOnlyRegistry =
      Except.ok (buildResult wildcardOnlyRegistry) ∧
    (buildResult wildcardOnlyRegistry).kindsConnections.get wildcard ≠
      ((buildResult wildcardOnlyRegistry).kindsConnections.dom.erase wildcard).biUnion
        (buildResult wildcardOnlyRegistry).kindsConnections.get :=
  ⟨discover_eq_ok (by decide), by decide⟩

/-- C3 (amended): the wildcard bucket contains every concrete kind's bucket
and receives every extracted property descriptor unconditionally; it equals
the union over all concrete kinds' buckets provided every property declares at
least one non-wildcard kind (a property declaring only the wildcard lands in
no concrete bucket, so in general the wildcard bucket may be strictly
larger). -/
theorem c3_wildcard_bucket_superset_and_union
    (bd : BlocksDescription) (r : ConnectionsDiscoveryResult)
    (h : discover_blocks_connections bd = Except.ok r) :
    (∀ k : Kind, k ≠ wildcard →
      r.kindsConnections.get k ⊆ r.kindsConnections.get wildcard) ∧
    (∀ pk ∈ allProps bd, pk.1 ∈ r.kindsConnections.get wildcard) ∧
    ((∀ pk ∈ allProps bd, ∃ k ∈ pk.2, k ≠ wildcard) →
      r.kindsConnections.get wildcard =
        (r.kindsConnections.dom.erase wildcard).biUnion r.kindsConnections.get) := by
  rw [discover_ok_inv h]
  refine ⟨?_, ?_, ?_⟩
  · intro k _ pr hpr
    obtain ⟨pk, hpk, rfl, _⟩ := mem_kindsGet.mp hpr
    exact mem_kindsGet.mpr ⟨pk, hpk, rfl, Or.inl rfl⟩
  · intro pk hpk
    exact mem_kindsGet.mpr ⟨pk, hpk, rfl, Or.inl rfl⟩
  · intro hcon
    ext pr
    simp only [Finset.mem_biUnion, Finset.mem_erase]
    constructor
    · intro hpr
      obtain ⟨pk, hpk, rfl, _⟩ := mem_kindsGet.mp hpr
      obtain ⟨k0, hk0, hk0w⟩ := hcon pk hpk
      refine ⟨k0, ⟨hk0w, mem_kindsDom.mpr (Or.inl ⟨pk, hpk, hk0⟩)⟩,
        mem_kindsGet.mpr ⟨pk, hpk, rfl, Or.inr hk0⟩⟩
    · rintro ⟨k0, ⟨_, _⟩, hpr⟩
      obtain ⟨pk, hpk, rfl, _⟩ := mem_kindsGet.mp hpr
      exact mem_kindsGet.mpr ⟨pk, hpk, rfl, Or.inl rfl⟩

/-- Witness for C3 (amended): in the concrete three-block registry every
property declares a non-wildcard kind, so the wildcard bucket is exactly the
union over the concrete kinds' buckets. -/
theorem c3_wildcard_bucket_superset_and_union_witness :
    discover_blocks_connections blocksDescription =
      Except.ok (buildResult blocksDescription) ∧
    (∀ pk ∈ allProps blocksDescription, ∃ k ∈ pk.2, k ≠ wildcard) ∧
    (buildResult blocksDescription).kindsConnections.get wildcard =
      ((buildResult blocksDescription).kindsConnections.dom.erase wildcard).biUnion
        (buildResult blocksDescription).kindsConnections.get :=
  ⟨discover_test_ok, by decide,
   (c3_wildcard_bucket_superset_and_union blocksDescription
      (buildResult blocksDescription) discover_test_ok).2.2 (by decide)⟩

/-- C4: for every registered block (looked up by its class, with the
structurally guaranteed distinctness of its manifest field names and of its
output names), the `block_wise` entry equals the union of the sets in its
`property_wise` entry, in both the input and the output connection views. -/
theorem c4_block_wise_is_union_of_property_wise
    (bd : BlocksDescription) (r : ConnectionsDiscoveryResult)
    (h : discover_blocks_connections bd = Except.ok r)
    (bt : String) (b : BlockDescription)
    (hb : findBlock bd bt = some b)
    (hfn : (b.manifestFields.map FieldDef.name).Nodup)
    (hon : (b.outputsManifest.map OutputDefinition.name).Nodup) :
    r.inputConnections.blockWise bt =
      (r.inputConnections.props bt).biUnion (r.inputConnections.get bt) ∧
    r.outputConnections.blockWise bt =
      (r.outputConnections.props bt).biUnion (r.outputConnections.get bt) := by
  rw [discover_ok_inv h]
  constructor
  · show inputBw bd bt = (inputProps bd bt).biUnion (inputGet bd bt)
    ext x
    rw [mem_inputBw hb, Finset.mem_biUnion]
    simp only [inputProps, hb, List.mem_toFinset, List.mem_map]
    constructor
    · rintro ⟨pk, hpk, hx⟩
      refine ⟨pk.1.propertyName, ⟨pk, hpk, rfl⟩, ?_⟩
      rw [inputGet_eq hb hfn hpk]
      exact hx
    · rintro ⟨pn, ⟨pk, hpk, rfl⟩, hx⟩
      rw [inputGet_eq hb hfn hpk] at hx
      exact ⟨pk, hpk, hx⟩
  · show outputBw bd bt = (outputProps bd bt).biUnion (outputGet bd bt)
    ext x
    rw [mem_outputBw hb, Finset.mem_biUnion]
    simp only [outputProps, hb, List.mem_toFinset, List.mem_map]
    constructor
    · rintro ⟨o, ho, hx⟩
      refine ⟨o.name, ⟨o, ho, rfl⟩, ?_⟩
      rw [outputGet_eq hb hon ho]
      exact hx
    · rintro ⟨pn, ⟨o, ho, rfl⟩, hx⟩
      rw [outputGet_eq hb hon ho] at hx
      exact ⟨o, ho, hx⟩

/-- Witness for C4: both unions at `Block1` of the concrete registry. -/
theorem c4_block_wise_is_union_of_property_wise_witness :
    discover_blocks_connections blocksDescription =
      Except.ok (buildResult blocksDescription) ∧
    findBlock blocksDescription "Block1" = some block1Description ∧
    ((buildResult blocksDescription).inputConnections.blockWise "Block1" =
        ((buildResult blocksDescription).inputConnections.props "Block1").biUnion
          ((buildResult blocksDescription).inputConnections.get "Block1") ∧
      (buildResult blocksDescription).outputConnections.blockWise "Block1" =
        ((buildResult blocksDescription).outputConnections.props "Block1").biUnion
          ((buildResult blocksDescription).outputConnections.get "Block1")) :=
  ⟨discover_test_ok, by decide,
   c4_block_wise_is_union_of_property_wise blocksDescription
     (buildResult blocksDescription) discover_test_ok "Block1" block1Description
     (by decide) (by decide) (by decide)⟩

/-- C5: an `inference_parameter` or `step_selector` property is present in
`input_connections.property_wise` with an empty supplier set (present key,
empty value), and no membership in any `output_connections` set — neither
`property_wise` nor `block_wise` — is ever due to such a property: every
member of an output consumer set is there because of a `step_output`
property. -/
theorem c5_non_step_output_properties
    (bd : BlocksDescription) (r : ConnectionsDiscoveryResult)
    (h : discover_blocks_connections bd = Except.ok r) :
    (∀ (bt : String) (b : BlockDescription) (pk : BlockPropertyDefinition × List Kind),
      findBlock bd bt = some b →
      (b.manifestFields.map FieldDef.name).Nodup →
      pk ∈ blockProps b →
      pk.1.compatibleElement ≠ SelectorKind.step_output →
      pk.1.propertyName ∈ r.inputConnections.props bt ∧
        r.inputConnections.get bt pk.1.propertyName = ∅) ∧
    (∀ (ct oname x : String), x ∈ r.outputConnections.get ct oname →
      ∃ c ∈ bd.blocks, c.blockType = x ∧
        ∃ pk ∈ blockProps c, pk.1.compatibleElement = SelectorKind.step_output) ∧
    (∀ (ct x : String), x ∈ r.outputConnections.blockWise ct →
      ∃ c ∈ bd.blocks, c.blockType = x ∧
        ∃ pk ∈ blockProps c, pk.1.compatibleElement = SelectorKind.step_output) := by
  rw [discover_ok_inv h]
  refine ⟨?_, ?_, ?_⟩
  · intro bt b pk hb hfn hpk hne
    constructor
    · show pk.1.propertyName ∈ inputProps bd bt
      simp only [inputProps, hb, List.mem_toFinset, List.mem_map]
      exact ⟨pk, hpk, rfl⟩
    · show inputGet bd bt pk.1.propertyName = ∅
      rw [inputGet_eq hb hfn hpk, suppliers, if_neg hne]
  · intro ct oname x hx
    replace hx : x ∈ outputGet bd ct oname := hx
    rw [outputGet] at hx
    cases hfb : findBlock bd ct with
    | none => rw [hfb] at hx; exact absurd hx (by simp)
    | some b =>
      simp only [hfb] at hx
      cases hfo : b.outputsManifest.find? (fun o => o.name == oname) with
      | none => rw [hfo] at hx; exact absurd hx (by simp)
      | some o =>
        simp only [hfo] at hx
        obtain ⟨c, hc, rfl, pk, hpk, hse, _⟩ := mem_consumers.mp hx
        exact ⟨c, hc, rfl, pk, hpk, hse⟩
  · intro ct x hx
    replace hx : x ∈ outputBw bd ct := hx
    cases hfb : findBlock bd ct with
    | none => rw [outputBw, hfb] at hx; exact absurd hx (by simp)
    | some b =>
      obtain ⟨o, _, hxo⟩ := (mem_outputBw hfb).mp hx
      obtain ⟨c, hc, rfl, pk, hpk, hse, _⟩ := mem_consumers.mp hxo
      exact ⟨c, hc, rfl, pk, hpk, hse⟩

/-- Witness for C5: `Block1.field_1` (an `inference_parameter` property of the
concrete registry) has a present, empty supplier set. -/
theorem c5_non_step_output_properties_witness :
    discover_blocks_connections blocksDescription =
      Except.ok (buildResult blocksDescription) ∧
    findBlock blocksDescription "Block1" = some block1Description ∧
    (⟨⟨"Block1", "Block1Manifest", "field_1", .inference_parameter, false⟩,
        (["1"] : List Kind)⟩ : BlockPropertyDefinition × List Kind) ∈
      blockProps block1Description ∧
    ("field_1" ∈ (buildResult blocksDescription).inputConnections.props "Block1" ∧
      (buildResult blocksDescription).inputConnections.get "Block1" "field_1" = ∅) :=
  ⟨discover_test_ok, by decide, by decide,
   (c5_non_step_output_properties blocksDescription
        (buildResult blocksDescription) discover_test_ok).1
      "Block1" block1Description
      ⟨⟨"Block1", "Block1Manifest", "field_1", .inference_parameter, false⟩, ["1"]⟩
      (by decide) (by decide) (by decide) (by decide)⟩

/-- C6: a block `C` is recorded as a supplier of a `step_output` property `P`
iff `C` has at least one output whose kind set intersects `P`'s accepted kind
set or either side contains the wildcard; mirrored, a block `B` is recorded as
a consumer of an output `O` iff `B` has a `step_output` property compatible
with `O` in the same sense (so an output whose kinds no property accepts has a
present but empty consumer set). -/
theorem c6_supplier_consumer_characterization
    (bd : BlocksDescription) (r : ConnectionsDiscoveryResult)
    (h : discover_blocks_connections bd = Except.ok r) :
    (∀ (bt : String) (b : BlockDescription)
        (pk : BlockPropertyDefinition × List Kind) (x : String),
      findBlock bd bt = some b →
      (b.manifestFields.map FieldDef.name).Nodup →
      pk ∈ blockProps b →
      pk.1.compatibleElement = SelectorKind.step_output →
      (x ∈ r.inputConnections.get bt pk.1.propertyName ↔
        ∃ c ∈ bd.blocks, c.blockType = x ∧
          ∃ o ∈ c.outputsManifest,
            (∃ k ∈ o.kind, k ∈ pk.2) ∨ wildcard ∈ o.kind ∨ wildcard ∈ pk.2)) ∧
    (∀ (ct : String) (c : BlockDescription) (o : OutputDefinition) (x : String),
      findBlock bd ct = some c →
      (c.outputsManifest.map OutputDefinition.name).Nodup →
      o ∈ c.outputsManifest →
      (x ∈ r.outputConnections.get ct o.name ↔
        ∃ b ∈ bd.blocks, b.blockType = x ∧
          ∃ pk ∈ blockProps b, pk.1.compatibleElement = SelectorKind.step_output ∧
            ((∃ k ∈ o.kind, k ∈ pk.2) ∨ wildcard ∈ o.kind ∨ wildcard ∈ pk.2))) := by
  rw [discover_ok_inv h]
  constructor
  · intro bt b pk x hb hfn hpk hse
    show x ∈ inputGet bd bt pk.1.propertyName ↔ _
    rw [inputGet_eq hb hfn hpk, mem_suppliers]
    simp only [hse, true_and, compatibleKinds_iff]
  · intro ct c o x hc hnd ho
    show x ∈ outputGet bd ct o.name ↔ _
    rw [outputGet_eq hc hnd ho, mem_consumers]
    simp only [compatibleKinds_iff]

/-- Witness for C6: `Block1` supplies `Block2.field_1` in the concrete
registry, and the characterization instantiates there. -/
theorem c6_supplier_consumer_characterization_witness :
    discover_blocks_connections blocksDescription =
      Except.ok (buildResult blocksDescription) ∧
    findBlock blocksDescription "Block2" = some block2Description ∧
    (⟨⟨"Block2", "Block2Manifest", "field_1", .step_output, true⟩,
        (["1"] : List Kind)⟩ : BlockPropertyDefinition × List Kind) ∈
      blockProps block2Description ∧
    ("Block1" ∈ (buildResult blocksDescription).inputConnections.get "Block2" "field_1" ↔
      ∃ c ∈ blocksDescription.blocks, c.blockType = "Block1" ∧
        ∃ o ∈ c.outputsManifest,
          (∃ k ∈ o.kind, k ∈ (["1"] : List Kind)) ∨
            wildcard ∈ o.kind ∨ wildcard ∈ (["1"] : List Kind)) :=
  ⟨discover_test_ok, by decide, by decide,
   (c6_supplier_consumer_characterization blocksDescription
        (buildResult blocksDescription) discover_test_ok).1
      "Block2" block2Description
      ⟨⟨"Block2", "Block2Manifest", "field_1", .step_output, true⟩, ["1"]⟩
      "Block1" (by decide) (by decide) (by decide) (by decide)⟩

/-- A block whose only output declares exactly the wildcard kind. -/
def blockADescription : BlockDescription :=
  ⟨"BlockA", "BlockAManifest", [], [⟨"out", [wildcard]⟩], "some.BlockA", "Block A"⟩

/-- A block with one `step_output` property accepting only kind "1". -/
def blockBDescription : BlockDescription :=
  ⟨"BlockB", "BlockBManifest",
   [⟨"field_1", ⟨false, [.selector .step_output ["1"]]⟩⟩],
   [], "some.BlockB", "Block B"⟩

/-- A registry where compatibility holds only through the wildcard: BlockA's
output kinds `{"*"}` do not intersect BlockB's accepted kinds `{"1"}`. -/
def wildcardPairRegistry : BlocksDescription :=
  ⟨[blockADescription, blockBDescription], ["1"]⟩

/-- C7 counterexample: `BlockA` supplies `BlockB.field_1` (wildcard
compatibility), yet no output of `BlockA` has kinds *intersecting* the
property's accepted kinds `{"1"}` — so the symmetry law as stated, with
"kinds intersect", fails; only the wildcard-aware form survives. -/
theorem c7_symmetry_intersection_fails :
    discover_blocks_connections wildcardPairRegistry =
      Except.ok (buildResult wildcardPairRegistry) ∧
    "BlockA" ∈ (buildResult wildcardPairRegistry).inputConnections.get
      "BlockB" "field_1" ∧
    ¬ ∃ o ∈ blockADescription.outputsManifest,
        "BlockB" ∈ (buildResult wildcardPairRegistry).outputConnections.get
          "BlockA" o.name ∧
        ∃ k ∈ o.kind, k ∈ (["1"] : List Kind) :=
  ⟨discover_eq_ok (by decide), by decide, by decide⟩

/-- C7 (amended): if `C` is a member of
`input_connections.property_wise[B][P]`, then `B` is a member of
`output_connections.property_wise[C][O]` for at least one output `O` of `C`
whose declared kinds are *compatible* with `P`'s accepted kinds (intersect, or
either side contains the wildcard) — the plain-intersection form fails when
compatibility holds only through the wildcard. -/
theorem c7_symmetry_up_to_wildcard
    (bd : BlocksDescription) (r : ConnectionsDiscoveryResult)
    (h : discover_blocks_connections bd = Except.ok r)
    (hbtnd : (bd.blocks.map (fun b => b.blockType)).Nodup)
    (hond : ∀ c ∈ bd.blocks, (c.outputsManifest.map OutputDefinition.name).Nodup)
    (bt pn x : String)
    (hx : x ∈ r.inputConnections.get bt pn) :
    ∃ b, findBlock bd bt = some b ∧
      ∃ pk ∈ blockProps b, pk.1.propertyName = pn ∧
        ∃ c ∈ bd.blocks, c.blockType = x ∧
          ∃ o ∈ c.outputsManifest, compatibleKinds o.kind pk.2 = true ∧
            bt ∈ r.outputConnections.get x o.name := by
  have hr := discover_ok_inv h
  subst hr
  replace hx : x ∈ inputGet bd bt pn := hx
  rw [inputGet] at hx
  cases hfb : findBlock bd bt with
  | none => rw [hfb] at hx; exact absurd hx (by simp)
  | some b =>
    simp only [hfb] at hx
    cases hfp : (blockProps b).find? (fun p => p.1.propertyName == pn) with
    | none => rw [hfp] at hx; exact absurd hx (by simp)
    | some pk =>
      simp only [hfp] at hx
      have hpk : pk ∈ blockProps b := List.mem_of_find?_eq_some hfp
      have hpn : pk.1.propertyName = pn := by simpa using List.find?_some hfp
      obtain ⟨hse, c, hc, rfl, o, ho, hco⟩ := mem_suppliers.mp hx
      refine ⟨b, rfl, pk, hpk, hpn, c, hc, rfl, o, ho, hco, ?_⟩
      have hfc : findBlock bd c.blockType = some c :=
        (findBlock_eq_some_iff hbtnd c).mpr ⟨hc, rfl⟩
      show bt ∈ outputGet bd c.blockType o.name
      rw [outputGet_eq hfc (hond c hc) ho]
      obtain ⟨hbmem, hbty⟩ := findBlock_mem hfb
      exact mem_consumers.mpr ⟨b, hbmem, hbty, pk, hpk, hse, hco⟩

/-- Witness for C7 (amended): `Block2` supplies `Block1.field_2` in the
concrete registry, and the wildcard-aware symmetry instantiates there. -/
theorem c7_symmetry_up_to_wildcard_witness :
    discover_blocks_connections blocksDescription =
      Except.ok (buildResult blocksDescription) ∧
    "Block2" ∈ (buildResult blocksDescription).inputConnections.get
      "Block1" "field_2" ∧
    ∃ b, findBlock blocksDescription "Block1" = some b ∧
      ∃ pk ∈ blockProps b, pk.1.propertyName = "field_2" ∧
        ∃ c ∈ blocksDescription.blocks, c.blockType = "Block2" ∧
          ∃ o ∈ c.outputsManifest, compatibleKinds o.kind pk.2 = true ∧
            "Block1" ∈ (buildResult blocksDescription).outputConnections.get
              "Block2" o.name :=
  ⟨discover_test_ok, by decide,
   c7_symmetry_up_to_wildcard blocksDescription (buildResult blocksDescription)
     discover_test_ok (by decide) (by decide) "Block1" "field_2" "Block2"
     (by decide)⟩

/-- C8: a manifest field with no selector branch contributes zero property
descriptors — no descriptor carrying its block and field name appears in any
`kinds_connections` bucket, and the field name is absent from the block's
`input_connections.property_wise` entry (so it never becomes a graph edge). -/
theorem c8_plain_fields_invisible
    (bd : BlocksDescription) (r : ConnectionsDiscoveryResult)
    (h : discover_blocks_connections bd = Except.ok r)
    (hbtnd : (bd.blocks.map (fun b => b.blockType)).Nodup)
    (bt : String) (b : BlockDescription) (f : FieldDef)
    (hb : findBlock bd bt = some b) (hf : f ∈ b.manifestFields)
    (hplain : selectorBranches f.type = [])
    (hfn : (b.manifestFields.map FieldDef.name).Nodup) :
    (∀ (k : Kind) (pr : BlockPropertyDefinition), pr ∈ r.kindsConnections.get k →
      ¬(pr.blockType = b.blockType ∧ pr.propertyName = f.name)) ∧
    f.name ∉ r.inputConnections.props bt := by
  rw [discover_ok_inv h]
  constructor
  · rintro k pr hpr ⟨hbt, hname⟩
    obtain ⟨pk, hpk, rfl, -⟩ := mem_kindsGet.mp hpr
    rw [allProps] at hpk
    obtain ⟨c, hc, hpkc⟩ := List.mem_flatMap.mp hpk
    obtain ⟨f', hf', hfp⟩ := mem_blockProps.mp hpkc
    obtain ⟨hcbt, -, hfname, hsel⟩ := fieldProp_eq_some hfp
    have hcb : c = b :=
      List.inj_on_of_nodup_map hbtnd hc (findBlock_mem hb).1 (hcbt.symm.trans hbt)
    subst hcb
    have hff : f' = f :=
      List.inj_on_of_nodup_map hfn hf' hf (hfname.symm.trans hname)
    subst hff
    exact hsel hplain
  · intro hmem
    replace hmem : f.name ∈ inputProps bd bt := hmem
    simp only [inputProps, hb, List.mem_toFinset, List.mem_map] at hmem
    obtain ⟨pk, hpk, heq⟩ := hmem
    obtain ⟨f', hf', hfp⟩ := mem_blockProps.mp hpk
    obtain ⟨-, -, hfname, hsel⟩ := fieldProp_eq_some hfp
    have hff : f' = f :=
      List.inj_on_of_nodup_map hfn hf' hf (hfname.symm.trans heq)
    subst hff
    exact hsel hplain

/-- Witness for C8: `Block3.field_1` (a plain `str` field of the concrete
registry) appears in no kind bucket and has no supplier entry. -/
theorem c8_plain_fields_invisible_witness :
    discover_blocks_connections blocksDescription =
      Except.ok (buildResult blocksDescription) ∧
    (⟨"field_1", ⟨false, [.literal]⟩⟩ : FieldDef) ∈
      block3Description.manifestFields ∧
    ((∀ (k : Kind) (pr : BlockPropertyDefinition),
        pr ∈ (buildResult blocksDescription).kindsConnections.get k →
        ¬(pr.blockType = block3Description.blockType ∧
            pr.propertyName = "field_1")) ∧
      "field_1" ∉ (buildResult blocksDescription).inputConnections.props "Block3") :=
  ⟨discover_test_ok, by decide,
   c8_plain_fields_invisible blocksDescription (buildResult blocksDescription)
     discover_test_ok (by decide) "Block3" block3Description
     ⟨"field_1", ⟨false, [.literal]⟩⟩ (by decide) (by decide) (by decide)
     (by decide)⟩

/-- The built result depends only on the *set* of registered blocks: any
permutation of the registration list (with pairwise-distinct block classes)
yields the identical result. -/
theorem buildResult_perm_eq {bd1 bd2 : BlocksDescription}
    (hp : bd1.blocks.Perm bd2.blocks)
    (hnd : (bd1.blocks.map (fun b => b.blockType)).Nodup) :
    buildResult bd1 = buildResult bd2 := by
  have hnd2 : (bd2.blocks.map (fun b => b.blockType)).Nodup :=
    ((hp.map _).nodup_iff).mp hnd
  have hap : (allProps bd1).Perm (allProps bd2) := by
    rw [allProps, allProps]
    exact hp.flatMap_right blockProps
  have hfb : ∀ bt, findBlock bd1 bt = findBlock bd2 bt := by
    intro bt
    cases h1 : findBlock bd1 bt with
    | some b =>
      obtain ⟨hmem, hbty⟩ := (findBlock_eq_some_iff hnd b).mp h1
      exact ((findBlock_eq_some_iff hnd2 b).mpr ⟨hp.mem_iff.mp hmem, hbty⟩).symm
    | none =>
      rw [findBlock] at h1
      rw [findBlock]
      symm
      rw [List.find?_eq_none] at h1 ⊢
      intro x hx
      exact h1 x (hp.mem_iff.mpr hx)
  have hiff : allProps bd1 = [] ↔ allProps bd2 = [] := by
    rw [← List.length_eq_zero, ← List.length_eq_zero, hap.length_eq]
  have hkDom : kindsDom bd1 = kindsDom bd2 := by
    rw [kindsDom, kindsDom,
      List.toFinset_eq_of_perm _ _ (hap.flatMap_right (fun p => p.2)),
      if_congr hiff rfl rfl]
  have hkGetf : kindsGet bd1 = kindsGet bd2 := by
    funext k
    rw [kindsGet, kindsGet]
    exact List.toFinset_eq_of_perm _ _ ((hap.filter _).map _)
  have hsup : ∀ pk, suppliers bd1 pk = suppliers bd2 pk := by
    intro pk
    rw [suppliers, suppliers]
    by_cases hse : pk.1.compatibleElement = SelectorKind.step_output
    · rw [if_pos hse, if_pos hse]
      exact List.toFinset_eq_of_perm _ _ ((hp.filter _).map _)
    · rw [if_neg hse, if_neg hse]
  have hcon : ∀ o, consumers bd1 o = consumers bd2 o := by
    intro o
    rw [consumers, consumers]
    exact List.toFinset_eq_of_perm _ _ ((hp.filter _).map _)
  have hdomB : domBlocks bd1 = domBlocks bd2 := by
    rw [domBlocks, domBlocks]
    exact List.toFinset_eq_of_perm _ _ (hp.map _)
  have hipf : inputProps bd1 = inputProps bd2 := by
    funext bt
    rw [inputProps, inputProps, hfb bt]
  have higf : inputGet bd1 = inputGet bd2 := by
    funext bt pn
    rw [inputGet, inputGet, hfb bt]
    cases findBlock bd2 bt with
    | none => rfl
    | some b =>
      dsimp only
      cases (blockProps b).find? (fun p => p.1.propertyName == pn) with
      | none => rfl
      | some pk => exact hsup pk
  have hibwf : inputBw bd1 = inputBw bd2 := by
    funext bt
    rw [inputBw, inputBw, hfb bt]
    cases findBlock bd2 bt with
    | none => rfl
    | some b => exact List.toFinset_eq_of_perm _ _ ((hp.filter _).map _)
  have hopf : outputProps bd1 = outputProps bd2 := by
    funext bt
    rw [outputProps, outputProps, hfb bt]
  have hogf : outputGet bd1 = outputGet bd2 := by
    funext bt oname
    rw [outputGet, outputGet, hfb bt]
    cases findBlock bd2 bt with
    | none => rfl
    | some b =>
      dsimp only
      cases b.outputsManifest.find? (fun o => o.name == oname) with
      | none => rfl
      | some o => exact hcon o
  have hobwf : outputBw bd1 = outputBw bd2 := by
    funext bt
    rw [outputBw, outputBw, hfb bt]
    cases findBlock bd2 bt with
    | none => rfl
    | some b => exact List.toFinset_eq_of_perm _ _ ((hp.filter _).map _)
  simp only [buildResult]
  rw [hkDom, hkGetf, hdomB, hipf, higf, hibwf, hopf, hogf, hobwf]

/-- C9: discovery is a pure function of the registry — two runs on the same
registry value return the identical result — and it is order-independent: on
registries whose block lists are permutations of each other (with the
pairwise-distinct block classes that Python class-keyed dictionaries
guarantee) and with the same declared kinds, the two successful results are
identical. -/
theorem c9_discovery_deterministic_and_order_independent :
    (∀ (bd : BlocksDescription) (r r' : ConnectionsDiscoveryResult),
      discover_blocks_connections bd = Except.ok r →
      discover_blocks_connections bd = Except.ok r' → r = r') ∧
    (∀ (bd1 bd2 : BlocksDescription) (r1 r2 : ConnectionsDiscoveryResult),
      bd1.blocks.Perm bd2.blocks →
      bd1.declaredKinds = bd2.declaredKinds →
      (bd1.blocks.map (fun b => b.blockType)).Nodup →
      discover_blocks_connections bd1 = Except.ok r1 →
      discover_blocks_connections bd2 = Except.ok r2 → r1 = r2) := by
  constructor
  · intro bd r r' h h'
    rw [discover_ok_inv h, discover_ok_inv h']
  · intro bd1 bd2 r1 r2 hp _ hnd h1 h2
    rw [discover_ok_inv h1, discover_ok_inv h2]
    exact buildResult_perm_eq hp hnd

/-- Witness for C9: rerunning discovery on the concrete registry, and running
it on the same registry with the block list reversed, both reproduce the
identical result. -/
theorem c9_discovery_deterministic_witness :
    discover_blocks_connections blocksDescription =
      Except.ok (buildResult blocksDescription) ∧
    (buildResult blocksDescription = buildResult blocksDescription ∧
      ∀ r2 : ConnectionsDiscoveryResult,
        discover_blocks_connections
          ⟨[block3Description, block2Description, block1Description],
            ["1", "2", "3"]⟩ = Except.ok r2 →
        buildResult blocksDescription = r2) :=
  ⟨discover_test_ok,
   c9_discovery_deterministic_and_order_independent.1 blocksDescription
     (buildResult blocksDescription) (buildResult blocksDescription)
     discover_test_ok discover_test_ok,
   fun r2 h2 =>
     c9_discovery_deterministic_and_order_independent.2 blocksDescription
       ⟨[block3Description, block2Description, block1Description], ["1", "2", "3"]⟩
       (buildResult blocksDescription) r2 (by decide) rfl (by decide)
       discover_test_ok h2⟩

/-- C10: the distinguished wildcard kind is the fixed sentinel named `"*"`
(`kinds_connections` is keyed by kind-name strings, so the wildcard bucket
sits under the key `"*"`, while the two block-connection views are keyed by
block classes), and the `"*"` key is present in every discovery result in
which at least one selector property exists. -/
theorem c10_wildcard_sentinel_key :
    wildcard = "*" ∧
    ∀ (bd : BlocksDescription) (r : ConnectionsDiscoveryResult),
      discover_blocks_connections bd = Except.ok r →
      allProps bd ≠ [] → wildcard ∈ r.kindsConnections.dom := by
  refine ⟨rfl, ?_⟩
  intro bd r h hne
  rw [discover_ok_inv h]
  exact mem_kindsDom.mpr (Or.inr ⟨rfl, hne⟩)

/-- Witness for C10: the concrete registry has selector properties, and its
result's key set contains `"*"`. -/
theorem c10_wildcard_sentinel_key_witness :
    discover_blocks_connections blocksDescription =
      Except.ok (buildResult blocksDescription) ∧
    allProps blocksDescription ≠ [] ∧
    wildcard ∈ (buildResult blocksDescription).kindsConnections.dom :=
  ⟨discover_test_ok, by decide,
   c10_wildcard_sentinel_key.2 blocksDescription (buildResult blocksDescription)
     discover_test_ok (by decide)⟩
